import Mathlib

/-!
Verification development for the quotes-catalog data-access layer.

The definitions below are a shallow embedding of the core logic of the
repository: the sanitization and validation routines of `utilities.py`
(class `Validator`) and the set-algebra search of `db.py`
(class `SearchFacade`).  Strings are modelled as Lean `String`/`List Char`;
Python's in-place mutation of the validated entity is modelled by returning
the entity's final state inside the outcome value; the SQLAlchemy session is
modelled as an explicit record store (`DB`) holding the table rows, with the
queries of the source translated to list filters.

Unicode modelling: `unicodedata.normalize('NFKD', s)` is modelled exactly on
ASCII (where it is the identity) and on the Latin-1 accented letters listed
in `latinDecomp` (decomposed into base letter plus combining mark); other
code points are left undecomposed.  Python's `str.lower`/`str.strip` and the
regex classes `\s`, `[a-z0-9]`, `[a-zA-Z\s\-.]` are modelled exactly on the
same character range.  All concrete inputs used in the theorems stay inside
that range.
-/

/-! ## Character helpers -/

def isAsciiUpper (c : Char) : Bool := 65 ≤ c.toNat && c.toNat ≤ 90

def isAsciiLower (c : Char) : Bool := 97 ≤ c.toNat && c.toNat ≤ 122

def isAsciiLetter (c : Char) : Bool := isAsciiUpper c || isAsciiLower c

def isAsciiDigit (c : Char) : Bool := 48 ≤ c.toNat && c.toNat ≤ 57

def asciiUpper (c : Char) : Char :=
  if isAsciiLower c then Char.ofNat (c.toNat - 32) else c

def asciiLower (c : Char) : Char :=
  if isAsciiUpper c then Char.ofNat (c.toNat + 32) else c

/-- Python `str.isspace` / regex `\s`, on the character range we model. -/
def isPySpace (c : Char) : Bool :=
  c == ' ' || c == '\t' || c == '\n' || c == '\r' ||
  c.toNat == 11 || c.toNat == 12 || c.toNat == 0xa0

/-- NFKD decomposition table for the Latin-1 accented letters we model:
base letter plus combining mark (the mark has code point ≥ 128). -/
def latinDecomp (c : Char) : Option (Char × Char) :=
  match c with
  | 'á' => some ('a', '́')
  | 'à' => some ('a', '̀')
  | 'â' => some ('a', '̂')
  | 'ä' => some ('a', '̈')
  | 'é' => some ('e', '́')
  | 'è' => some ('e', '̀')
  | 'ê' => some ('e', '̂')
  | 'ë' => some ('e', '̈')
  | 'í' => some ('i', '́')
  | 'ó' => some ('o', '́')
  | 'ö' => some ('o', '̈')
  | 'ú' => some ('u', '́')
  | 'ü' => some ('u', '̈')
  | 'ñ' => some ('n', '̃')
  | 'ç' => some ('c', '̧')
  | 'Á' => some ('A', '́')
  | 'É' => some ('E', '́')
  | 'Í' => some ('I', '́')
  | 'Ó' => some ('O', '́')
  | 'Ú' => some ('U', '́')
  | 'Ñ' => some ('N', '̃')
  | 'Ç' => some ('C', '̧')
  | _ => none

/-- Models `unicodedata.normalize('NFKD', ·)` character-wise. -/
def nfkdChar (c : Char) : List Char :=
  match latinDecomp c with
  | some p => [p.1, p.2]
  | none => [c]

def nfkd (l : List Char) : List Char := (l.map nfkdChar).flatten

/-- Python `str.lower`, character-wise, on the modelled range. -/
def pyLowerChar (c : Char) : Char :=
  if isAsciiUpper c then asciiLower c
  else
    match c with
    | 'Á' => 'á'
    | 'É' => 'é'
    | 'Í' => 'í'
    | 'Ó' => 'ó'
    | 'Ú' => 'ú'
    | 'Ñ' => 'ñ'
    | 'Ç' => 'ç'
    | _ => c

def dropTrail (p : Char → Bool) (l : List Char) : List Char :=
  (l.reverse.dropWhile p).reverse

/-- Python `str.strip` on a character list. -/
def pyStrip (l : List Char) : List Char :=
  dropTrail isPySpace (l.dropWhile isPySpace)

/-- Python `str.strip` on a string. -/
def pyStripS (s : String) : String := String.mk (pyStrip s.toList)

/-- Python `str.lower` on a string. -/
def pyLowerS (s : String) : String := String.mk (s.toList.map pyLowerChar)

/-! ## `Validator._sanitize_tag_name` (utilities.py lines 200-225) -/

/-- Characters kept by `re.sub(r'[^a-z0-9]', '', name)`. -/
def isTagKeep (c : Char) : Bool := isAsciiLower c || isAsciiDigit c

/-- The transformation applied to a tag name before the emptiness/length
checks: lowercase, strip, NFKD-decompose and drop non-ASCII, keep only
`[a-z0-9]`. -/
def tagScrub (s : String) : List Char :=
  let n := pyStrip (s.toList.map pyLowerChar)
  let n := (nfkd n).filter (fun c => c.toNat < 128)
  n.filter isTagKeep

/-- `Validator._sanitize_tag_name`: returns the scrubbed name, or a
`ValidationError` message when it is empty or longer than 100 characters. -/
def sanitize_tag_name (s : String) : Except String String :=
  let n := tagScrub s
  if n.isEmpty then Except.error "Tag must contain at least one alphanumeric character"
  else if n.length > 100 then Except.error "Tag name cannot exceed 100 characters"
  else Except.ok (String.mk n)

/-! ## `Validator._sanitize_author_name` (utilities.py lines 227-287) -/

/-- Characters kept by `re.sub(r"[^a-zA-Z\s\-\.]", "", name)`. -/
def isAuthorAllowed (c : Char) : Bool :=
  isAsciiLetter c || isPySpace c || c == '-' || c == '.'

/-- The two character filters at the head of `_sanitize_author_name`:
NFKD-decompose and keep ASCII or whitespace, then keep `[a-zA-Z\s\-.]`. -/
def authorClean (l : List Char) : List Char :=
  ((nfkd l).filter (fun c => c.toNat < 128 || isPySpace c)).filter isAuthorAllowed

/-- One piece of `re.split(r'(\s+|-)', name)`: a whitespace run, a single
hyphen, or a word (maximal run of other characters). -/
inductive NamePart where
  | ws : NamePart
  | hyph : NamePart
  | word : List Char → NamePart
deriving DecidableEq

/-- One step of the tokenizer; folding `pushTok` from the right over the
character list yields exactly the non-empty pieces of
`re.split(r'(\s+|-)', name)` in order (empty pieces are skipped by the
source loop anyway). -/
def pushTok (c : Char) (acc : List NamePart) : List NamePart :=
  if isPySpace c then
    match acc with
    | NamePart.ws :: _ => acc
    | _ => NamePart.ws :: acc
  else if c == '-' then NamePart.hyph :: acc
  else
    match acc with
    | NamePart.word w :: rest => NamePart.word (c :: w) :: rest
    | _ => NamePart.word [c] :: acc

def tokenizeName (l : List Char) : List NamePart := l.foldr pushTok []

/-- Python `str.isupper`: at least one cased character and every cased
character uppercase (cased characters in the modelled range after the
author filters are the ASCII letters). -/
def pyIsUpper (l : List Char) : Bool :=
  l.any (fun c => isAsciiLetter c) && l.all (fun c => !isAsciiLetter c || isAsciiUpper c)

/-- Python `str.capitalize`: first character uppercased, rest lowercased. -/
def pyCapitalize : List Char → List Char
  | [] => []
  | c :: rest => asciiUpper c :: rest.map asciiLower

/-- The body of the `for part in parts` loop of `_sanitize_author_name`,
building `sanitized_parts`.  A word part never contains whitespace (by the
tokenizer), so the source's `part.strip()` is the identity there. -/
def pushPart (parts : List (List Char)) (t : NamePart) : List (List Char) :=
  match t with
  | NamePart.ws =>
      match parts.getLast? with
      | some p => if p = [' '] then parts else parts ++ [[' ']]
      | none => parts ++ [[' ']]
  | NamePart.hyph => parts ++ [['-']]
  | NamePart.word w =>
      match w with
      | [c] => parts ++ [[asciiUpper c, '.']]
      | _ =>
          if w.length = 2 && pyIsUpper w then
            if w.getLast? = some '.' then parts ++ [w] else parts ++ [w ++ ['.']]
          else parts ++ [pyCapitalize w]

/-- `re.sub(r'\s+', ' ', result)`: collapse each whitespace run to one space. -/
def collapseWs (l : List Char) : List Char :=
  l.foldr
    (fun c acc =>
      if isPySpace c then
        match acc with
        | a :: _ => if a = ' ' then acc else ' ' :: acc
        | [] => [' ']
      else c :: acc) []

/-- `re.sub(r'\s+\.', '.', result)`: drop whitespace standing before a period. -/
def subWsDot (l : List Char) : List Char :=
  l.foldr
    (fun c acc =>
      if isPySpace c then
        match acc with
        | '.' :: _ => acc
        | _ => c :: acc
      else c :: acc) []

/-- `re.sub(r'-\s+', '-', result)`: drop whitespace right after a hyphen.
The flag records that we are scanning the whitespace run after a hyphen. -/
def subHyphenWsGo : Bool → List Char → List Char
  | _, [] => []
  | afterH, c :: rest =>
      if afterH && isPySpace c then subHyphenWsGo true rest
      else if c == '-' then '-' :: subHyphenWsGo true rest
      else c :: subHyphenWsGo false rest

def subHyphenWs (l : List Char) : List Char := subHyphenWsGo false l

/-- `re.sub(r'(-\s*)([a-z])', ...)`: uppercase a lowercase letter standing
after a hyphen and optional whitespace.  The flag records being inside the
`-\s*` context. -/
def subHyphenLowerGo : Bool → List Char → List Char
  | _, [] => []
  | inCtx, c :: rest =>
      if c == '-' then '-' :: subHyphenLowerGo true rest
      else if inCtx && isPySpace c then c :: subHyphenLowerGo true rest
      else if inCtx && isAsciiLower c then asciiUpper c :: subHyphenLowerGo false rest
      else c :: subHyphenLowerGo false rest

def subHyphenLower (l : List Char) : List Char := subHyphenLowerGo false l

/-- `Validator._sanitize_author_name` on a character list. -/
def sanitize_author_name_list (l : List Char) : List Char :=
  let cleaned := authorClean l
  let parts := (tokenizeName cleaned).foldl pushPart []
  let r := parts.flatten
  let r := collapseWs r
  let r := subWsDot r
  let r := subHyphenWs r
  let r := subHyphenLower r
  pyStrip r

/-- `Validator._sanitize_author_name`. -/
def sanitize_author_name (s : String) : String :=
  String.mk (sanitize_author_name_list s.toList)

/-! ## Data model and record store

Entities as the `Validator` consumes them (models.py / spec section 3):
`Quote` with `text`, `source`, `author_id`; `Author`, `Tag`, `Category`
with `name`; `User` with `name` and `email`.  The `DB` record models the
session's table contents together with the quote-tag and quote-category
association tables. -/

structure QuoteEnt where
  id : Nat
  text : String
  source : Option String
  author_id : Option Nat
deriving DecidableEq

structure AuthorEnt where
  id : Nat
  name : String
deriving DecidableEq

structure TagEnt where
  id : Nat
  name : String
deriving DecidableEq

structure CategoryEnt where
  id : Nat
  name : String
deriving DecidableEq

structure UserEnt where
  id : Nat
  name : String
  email : String
deriving DecidableEq

structure DB where
  quotes : List QuoteEnt
  authors : List AuthorEnt
  tags : List TagEnt
  categories : List CategoryEnt
  users : List UserEnt
  quote_tags : List (Nat × Nat)
  quote_categories : List (Nat × Nat)

/-- The outcome of `Validator.validate` together with the final state of the
entity passed in: the source mutates its argument in place, returns it on
success, returns `False` on a duplicate, and raises `ValidationError`
otherwise, so the outcome records the entity's fields at the moment the
call ends. -/
inductive VOut (α : Type) where
  | ok : α → VOut α
  | dup : α → VOut α
  | invalid : String → α → VOut α
deriving DecidableEq

/-- `ILIKE` with no wildcard characters: case-insensitive (ASCII) equality,
as used by the duplicate checks on sanitized names. -/
def ilikeEq (a b : String) : Bool :=
  a.toList.map asciiLower == b.toList.map asciiLower

/-- `if exclude_id: existing = existing.filter(Model.id != exclude_id)`:
the guard is Python truthiness, so `None` and `0` both skip the filter. -/
def applyExcl {α : Type} (excl : Option Nat) (getId : α → Nat) (l : List α) : List α :=
  match excl with
  | none => l
  | some i => if i ≠ 0 then l.filter (fun x => getId x != i) else l

/-- Python truthiness of an optional string (`None` and `""` are falsy). -/
def optStrTruthy : Option String → Bool
  | none => false
  | some s => !(s == "")

/-- Python truthiness of an optional integer (`None` and `0` are falsy). -/
def optNatTruthy : Option Nat → Bool
  | none => false
  | some i => i != 0

/-- Python truthiness of an optional string list (`None` and `[]` are falsy). -/
def optListTruthy : Option (List String) → Bool
  | none => false
  | some l => !l.isEmpty

/-! ## `Validator` dispatch targets (utilities.py) -/

/-- `Validator._validate_quote` (lines 48-83). -/
def validate_quote (db : DB) (q : QuoteEnt) (excl : Option Nat) : VOut QuoteEnt :=
  if q.text = "" ∨ pyStripS q.text = "" then VOut.invalid "Quote text cannot be empty" q
  else if q.text.length > 5000 then VOut.invalid "Quote text cannot exceed 5000 characters" q
  else
    let q1 : QuoteEnt := { q with text := pyStripS q.text }
    let existing := db.quotes.filter (fun x => x.text == q1.text)
    let existing := applyExcl excl (fun x : QuoteEnt => x.id) existing
    if existing ≠ [] then VOut.dup q1
    else if optStrTruthy q1.source ∧ (q1.source.getD "").length > 300 then
      VOut.invalid "Source cannot exceed 300 characters" q1
    else
      let q2 : QuoteEnt :=
        if optStrTruthy q1.source then { q1 with source := some (pyStripS (q1.source.getD "")) }
        else q1
      if optNatTruthy q2.author_id then
        match db.authors.find? (fun x => some x.id == q2.author_id) with
        | some _ => VOut.ok q2
        | none => VOut.invalid "Author with that ID does not exist" q2
      else VOut.ok q2

/-- `Validator._validate_author` (lines 89-108). -/
def validate_author (db : DB) (a : AuthorEnt) (excl : Option Nat) : VOut AuthorEnt :=
  if a.name = "" ∨ pyStripS a.name = "" then VOut.invalid "Author name cannot be empty" a
  else
    let a1 : AuthorEnt := { a with name := sanitize_author_name a.name }
    let existing := db.authors.filter (fun x => ilikeEq x.name a1.name)
    let existing := applyExcl excl (fun x : AuthorEnt => x.id) existing
    if existing ≠ [] then VOut.dup a1 else VOut.ok a1

/-- `Validator._validate_tag` (lines 114-133). -/
def validate_tag (db : DB) (t : TagEnt) (excl : Option Nat) : VOut TagEnt :=
  if t.name = "" ∨ pyStripS t.name = "" then VOut.invalid "Tag name cannot be empty" t
  else
    match sanitize_tag_name t.name with
    | Except.error m => VOut.invalid m t
    | Except.ok n =>
        let t1 : TagEnt := { t with name := n }
        let existing := db.tags.filter (fun x => ilikeEq x.name t1.name)
        let existing := applyExcl excl (fun x : TagEnt => x.id) existing
        if existing ≠ [] then VOut.dup t1 else VOut.ok t1

/-- `Validator._validate_user` (lines 139-167).  Note that the length check
runs on the raw, untrimmed name, and the `"@"` check on the raw email. -/
def validate_user (db : DB) (u : UserEnt) (excl : Option Nat) : VOut UserEnt :=
  if u.name = "" ∨ pyStripS u.name = "" then VOut.invalid "Name cannot be empty" u
  else if u.name.length < 3 then VOut.invalid "Name must be at least 3 characters" u
  else
    let u1 : UserEnt := { u with name := pyStripS u.name }
    if u1.email = "" ∨ ¬u1.email.toList.contains '@' then VOut.invalid "Invalid email format" u1
    else
      let u2 : UserEnt := { u1 with email := pyLowerS (pyStripS u1.email) }
      let existing := db.users.filter (fun x => x.name == u2.name || x.email == u2.email)
      let existing := applyExcl excl (fun x : UserEnt => x.id) existing
      if existing ≠ [] then VOut.dup u2 else VOut.ok u2

/-! ## `SearchFacade` (db.py lines 612-737) -/

/-- `startsWith p l`: `p` is a prefix of `l`. -/
def listStartsWith : List Char → List Char → Bool
  | [], _ => true
  | _ :: _, [] => false
  | p :: ps, c :: cs => p == c && listStartsWith ps cs

/-- `listContainsSub p l`: `p` occurs as a contiguous sublist of `l`
(models `LIKE '%p%'` and Python's `in` on strings). -/
def listContainsSub (p : List Char) : List Char → Bool
  | [] => listStartsWith p []
  | c :: cs => listStartsWith p (c :: cs) || listContainsSub p cs

/-- `QuoteRepository.search`: `Quote.text ILIKE '%query%'` (db.py line 452). -/
def quotesSearch (db : DB) (query : String) : List QuoteEnt :=
  db.quotes.filter (fun q =>
    listContainsSub (query.toList.map asciiLower) (q.text.toList.map asciiLower))

/-- `AuthorRepository.by_name`: exact-name lookup (db.py line 536). -/
def authorByName (db : DB) (name : String) : Option AuthorEnt :=
  db.authors.find? (fun a => a.name == name)

/-- `TagRepository.by_name`: exact-name lookup (db.py line 599). -/
def tagByName (db : DB) (name : String) : Option TagEnt :=
  db.tags.find? (fun t => t.name == name)

/-- Category lookup by exact name (db.py line 686). -/
def categoryByName (db : DB) (name : String) : Option CategoryEnt :=
  db.categories.find? (fun c => c.name == name)

/-- The `Tag.quotes` relationship: quotes joined through `quote_tags`. -/
def tagQuotes (db : DB) (t : TagEnt) : List QuoteEnt :=
  db.quotes.filter (fun q => db.quote_tags.contains (q.id, t.id))

/-- The `Category.quotes` relationship: quotes joined through
`quote_categories`. -/
def categoryQuotes (db : DB) (c : CategoryEnt) : List QuoteEnt :=
  db.quotes.filter (fun q => db.quote_categories.contains (q.id, c.id))

/-- The `Author.quotes` relationship: quotes with this `author_id`. -/
def authorQuotes (db : DB) (a : AuthorEnt) : List QuoteEnt :=
  db.quotes.filter (fun q => q.author_id == some a.id)

/-- `SearchFacade.search_quotes_by_author` (db.py lines 642-651). -/
def search_quotes_by_author (db : DB) (author_name : String) (quote_text : Option String) :
    List QuoteEnt :=
  match authorByName db author_name with
  | none => []
  | some a =>
      let qs := authorQuotes db a
      if optStrTruthy quote_text then
        qs.filter (fun q =>
          listContainsSub ((quote_text.getD "").toList.map asciiLower)
            (q.text.toList.map asciiLower))
      else qs

/-- The branch on the resolved tag list in `search_quotes_by_tags`
(db.py lines 663-677): empty list gives the empty set; `match_all`
intersects starting from the first tag's quote-set; otherwise unions. -/
def combineTagSets (db : DB) (match_all : Bool) : List TagEnt → Finset QuoteEnt
  | [] => ∅
  | t :: rest =>
      if match_all then
        rest.foldl (fun acc tg => acc ∩ (tagQuotes db tg).toFinset) (tagQuotes db t).toFinset
      else
        (t :: rest).foldl (fun acc tg => acc ∪ (tagQuotes db tg).toFinset) ∅

/-- `SearchFacade.search_quotes_by_tags` (db.py lines 653-677): resolve each
name, drop unresolved ones, combine the quote-sets. -/
def search_quotes_by_tags (db : DB) (tag_names : List String) (match_all : Bool) :
    Finset QuoteEnt :=
  combineTagSets db match_all ((tag_names.map (tagByName db)).reduceOption)

/-- The branch on the resolved category list in
`search_quotes_by_categories` (db.py lines 689-701). -/
def combineCatSets (db : DB) (match_all : Bool) : List CategoryEnt → Finset QuoteEnt
  | [] => ∅
  | c :: rest =>
      if match_all then
        rest.foldl (fun acc cg => acc ∩ (categoryQuotes db cg).toFinset)
          (categoryQuotes db c).toFinset
      else
        (c :: rest).foldl (fun acc cg => acc ∪ (categoryQuotes db cg).toFinset) ∅

/-- `SearchFacade.search_quotes_by_categories` (db.py lines 679-701). -/
def search_quotes_by_categories (db : DB) (category_names : List String) (match_all : Bool) :
    Finset QuoteEnt :=
  combineCatSets db match_all ((category_names.map (categoryByName db)).reduceOption)

/-- Python truthiness of the running `results` variable of
`advanced_search`: `None` and the empty set are falsy. -/
def resTruthy : Option (Finset QuoteEnt) → Bool
  | none => false
  | some r => decide r.Nonempty

/-- One narrowing step of `advanced_search`:
`results.intersection(x) if results else x`. -/
def combineStep (results : Option (Finset QuoteEnt)) (x : Finset QuoteEnt) : Finset QuoteEnt :=
  if resTruthy results then (results.getD ∅) ∩ x else x

/-- `SearchFacade.advanced_search` (db.py lines 703-737), including the
truthiness of every guard of the source. -/
def advanced_search (db : DB) (text author : Option String)
    (tags categories : Option (List String))
    (match_all_tags match_all_categories : Bool) : Finset QuoteEnt :=
  let r0 : Option (Finset QuoteEnt) := none
  let r1 := if optStrTruthy text then some (quotesSearch db (text.getD "")).toFinset else r0
  let r2 :=
    if optStrTruthy author then
      some (combineStep r1 (search_quotes_by_author db (author.getD "") none).toFinset)
    else r1
  let r3 :=
    if optListTruthy tags then
      some (combineStep r2 (search_quotes_by_tags db (tags.getD []) match_all_tags))
    else r2
  let r4 :=
    if optListTruthy categories then
      some (combineStep r3 (search_quotes_by_categories db (categories.getD []) match_all_categories))
    else r3
  if resTruthy r4 then r4.getD ∅ else ∅

/-! ## Concrete stores used by the closed theorems -/

/-- An empty record store. -/
def dbEmpty : DB := ⟨[], [], [], [], [], [], []⟩

/-- A store with one author owning one quote, one tag on that quote. -/
def dbOne : DB :=
  { quotes := [⟨1, "hello", none, some 1⟩]
    authors := [⟨1, "Alice"⟩]
    tags := [⟨1, "t"⟩]
    categories := []
    users := []
    quote_tags := [(1, 1)]
    quote_categories := [] }

/-- A store holding one row of each kind, used to exhibit the duplicate
outcomes of the validators. -/
def dbDup : DB :=
  { quotes := [⟨1, "hi", none, some 1⟩]
    authors := [⟨1, "Mark Twain"⟩]
    tags := [⟨1, "love"⟩]
    categories := []
    users := [⟨1, "bob", "b@c"⟩]
    quote_tags := []
    quote_categories := [] }

/-! ## Helper lemmas -/

theorem listIsEmpty_iff {α : Type} (l : List α) : l.isEmpty = true ↔ l = [] := by
  cases l <;> simp

theorem tagScrub_chars (s : String) : ∀ c ∈ tagScrub s, isTagKeep c = true := by
  intro c hc
  unfold tagScrub at hc
  exact (List.mem_filter.mp hc).2

theorem mem_applyExcl {α : Type} (excl : Option Nat) (getId : α → Nat) {x : α} {l : List α}
    (hx : x ∈ l) (hid : ∀ i, excl = some i → getId x ≠ i) :
    x ∈ applyExcl excl getId l := by
  cases excl with
  | none => simpa [applyExcl] using hx
  | some i =>
      by_cases hi : i = 0
      · subst hi
        simpa [applyExcl] using hx
      · simp only [applyExcl, if_pos hi]
        refine List.mem_filter.mpr ⟨hx, ?_⟩
        simpa using hid i rfl

theorem mem_foldl_inter {α : Type} (f : α → Finset QuoteEnt) (l : List α)
    (init : Finset QuoteEnt) (q : QuoteEnt) :
    q ∈ l.foldl (fun acc t => acc ∩ f t) init ↔ q ∈ init ∧ ∀ t ∈ l, q ∈ f t := by
  induction l generalizing init with
  | nil => simp
  | cons a l ih =>
      simp only [List.foldl_cons, ih, Finset.mem_inter, List.mem_cons]
      constructor
      · rintro ⟨⟨h1, h2⟩, h3⟩
        exact ⟨h1, fun t ht => ht.elim (fun e => e ▸ h2) (h3 t)⟩
      · rintro ⟨h1, h2⟩
        exact ⟨⟨h1, h2 a (Or.inl rfl)⟩, fun t ht => h2 t (Or.inr ht)⟩

theorem mem_foldl_union {α : Type} (f : α → Finset QuoteEnt) (l : List α)
    (init : Finset QuoteEnt) (q : QuoteEnt) :
    q ∈ l.foldl (fun acc t => acc ∪ f t) init ↔ q ∈ init ∨ ∃ t ∈ l, q ∈ f t := by
  induction l generalizing init with
  | nil => simp
  | cons a l ih =>
      simp only [List.foldl_cons, ih, Finset.mem_union, List.mem_cons]
      constructor
      · rintro (⟨h | h⟩ | ⟨t, ht, hq⟩)
        · exact Or.inl h
        · exact Or.inr ⟨a, Or.inl rfl, h⟩
        · exact Or.inr ⟨t, Or.inr ht, hq⟩
      · rintro (h | ⟨t, ht | ht, hq⟩)
        · exact Or.inl (Or.inl h)
        · exact Or.inl (Or.inr (ht ▸ hq))
        · exact Or.inr ⟨t, ht, hq⟩

/-! ## Claim theorems -/

/-- C2: `search_quotes_by_tags` resolves each name, silently skipping names
that resolve to no tag; with no resolved tag the result is empty; with
`match_all` a quote is returned iff it lies in every resolved tag's
quote-set (the intersection seeded from the first tag's quote-set); without
`match_all` iff it lies in some resolved tag's quote-set (the union). -/
theorem search_quotes_by_tags_spec (db : DB) (names : List String) (ma : Bool) (q : QuoteEnt) :
    q ∈ search_quotes_by_tags db names ma ↔
      ((names.map (tagByName db)).reduceOption ≠ [] ∧
        if ma then ∀ t ∈ (names.map (tagByName db)).reduceOption, q ∈ (tagQuotes db t).toFinset
        else ∃ t ∈ (names.map (tagByName db)).reduceOption, q ∈ (tagQuotes db t).toFinset) := by
  unfold search_quotes_by_tags
  rcases h : (names.map (tagByName db)).reduceOption with _ | ⟨t, rest⟩
  · simp [combineTagSets]
  · cases ma with
    | false =>
        simp [combineTagSets, mem_foldl_union]
    | true =>
        simp [combineTagSets, mem_foldl_inter, List.forall_mem_cons]

/-- C1: divergence exhibited on a concrete store.  In `advanced_search` the
guard `results.intersection(x) if results else x` treats an empty
intermediate result set like `None`: a text criterion matching nothing
combined with an author criterion returns the author's whole quote-set
instead of the empty intersection, and an author name resolving to no
Author fails to short-circuit when a tags criterion follows. -/
theorem advanced_search_overwrites_empty_result :
    quotesSearch dbOne "zzz" = [] ∧
    advanced_search dbOne (some "zzz") (some "Alice") none none false false =
      {⟨1, "hello", none, some 1⟩} ∧
    authorByName dbOne "Nobody" = none ∧
    advanced_search dbOne none (some "Nobody") (some ["t"]) none false false =
      {⟨1, "hello", none, some 1⟩} := by
  exact ⟨by decide, by decide, by decide, by decide⟩

/-- C3: `sanitize_author_name` is not idempotent.  On `"AB"` the
two-letter-abbreviation branch appends a period, giving `"AB."`; a second
application sees a three-character word and capitalizes it to `"Ab."`. -/
theorem sanitize_author_name_not_idempotent :
    sanitize_author_name "AB" = "AB." ∧
    sanitize_author_name (sanitize_author_name "AB") = "Ab." ∧
    sanitize_author_name (sanitize_author_name "AB") ≠ sanitize_author_name "AB" := by
  exact ⟨by decide, by decide, by decide⟩

/-- C7: `advanced_search` with every criterion omitted returns the empty
set, not the set of all quotes. -/
theorem advanced_search_no_criteria (db : DB) (mt mc : Bool) :
    advanced_search db none none none none mt mc = ∅ := rfl

/-- C8: a non-blank author name consisting only of characters the sanitizer
removes (here `"123"`) passes the raw-input blank check, sanitizes to the
empty string without an error, and validation succeeds on an empty store,
returning an Author whose name is the empty string. -/
theorem digit_author_name_accepted :
    pyStripS "123" ≠ "" ∧ sanitize_author_name "123" = "" ∧
    validate_author dbEmpty ⟨1, "123"⟩ none = VOut.ok ⟨1, ""⟩ := by
  exact ⟨by decide, by decide, by decide⟩

/-- C5 counterexample: the User `" a "` has a trimmed name of length 1,
yet `validate_user` accepts it on an empty store, because the length check
`len(user.name) < 3` runs on the raw, untrimmed name (length 3). -/
theorem validate_user_trimmed_short_accepted :
    (pyStripS " a ").length < 3 ∧
    validate_user dbEmpty ⟨1, " a ", "x@y"⟩ none = VOut.ok ⟨1, "a", "x@y"⟩ := by
  exact ⟨by decide, by decide⟩

/-- C5 (amended): `validate_user` fails with a `ValidationError` for every
User whose raw (untrimmed) name has fewer than 3 characters; the length
check precedes the trimming. -/
theorem validate_user_short_raw_name (db : DB) (u : UserEnt) (excl : Option Nat)
    (h : u.name.length < 3) :
    ∃ m, validate_user db u excl = VOut.invalid m u := by
  by_cases h1 : u.name = "" ∨ pyStripS u.name = ""
  · exact ⟨_, by rw [validate_user, if_pos h1]⟩
  · exact ⟨_, by rw [validate_user, if_neg h1, if_pos h]⟩

/-- Witness for C5 (amended) at the concrete name `"ab"`. -/
theorem validate_user_short_raw_name_witness :
    ∃ m, validate_user dbEmpty ⟨1, "ab", "x@y"⟩ none = VOut.invalid m ⟨1, "ab", "x@y"⟩ :=
  validate_user_short_raw_name dbEmpty ⟨1, "ab", "x@y"⟩ none (by decide)

/-- C6: when the sanitized name of the Author being validated equals, up to
ASCII case, the name of a stored Author whose id differs from the given
`exclude_id`, `validate_author` returns the `dup` outcome — duplicate is
signalled as data (the `VOut.dup` constructor), not by raising; the
`invalid` constructor is the only one modelling an exception. -/
theorem validate_author_duplicate_signal (db : DB) (a : AuthorEnt) (excl : Option Nat)
    (hname : pyStripS a.name ≠ "") (x : AuthorEnt) (hx : x ∈ db.authors)
    (hmatch : ilikeEq x.name (sanitize_author_name a.name) = true)
    (hid : ∀ i, excl = some i → x.id ≠ i) :
    validate_author db a excl = VOut.dup { a with name := sanitize_author_name a.name } := by
  have hc1 : ¬(a.name = "" ∨ pyStripS a.name = "") := by
    rintro (h | h)
    · exact hname (by rw [h]; rfl)
    · exact hname h
  have hmem : x ∈ applyExcl excl (fun y : AuthorEnt => y.id)
      (db.authors.filter (fun y => ilikeEq y.name (sanitize_author_name a.name))) :=
    mem_applyExcl excl _ (List.mem_filter.mpr ⟨hx, hmatch⟩) hid
  have hne : applyExcl excl (fun y : AuthorEnt => y.id)
      (db.authors.filter (fun y => ilikeEq y.name (sanitize_author_name a.name))) ≠ [] :=
    List.ne_nil_of_mem hmem
  simp only [validate_author]
  rw [if_neg hc1, if_pos hne]

/-- Witness for C6: validating `"mark twain"` against a store holding
`"Mark Twain"` signals the duplicate outcome. -/
theorem validate_author_duplicate_signal_witness :
    validate_author dbDup ⟨2, "mark twain"⟩ none = VOut.dup ⟨2, "Mark Twain"⟩ := by
  have h := validate_author_duplicate_signal dbDup ⟨2, "mark twain"⟩ none (by decide)
    ⟨1, "Mark Twain"⟩ (by decide) (by decide) (fun i hi => by cases hi)
  exact h

/-- C9: for a Quote with non-blank text of at most 5000 characters whose
trimmed text equals the (already-trimmed, per the data-model invariant)
text of a stored Quote with id different from the given `exclude_id`,
`validate_quote` signals the duplicate outcome, whatever `author_id` holds:
the duplicate check runs before the author-existence check. -/
theorem validate_quote_dup_precedes_author (db : DB) (q : QuoteEnt) (excl : Option Nat)
    (ht : pyStripS q.text ≠ "") (hlen : q.text.length ≤ 5000)
    (x : QuoteEnt) (hx : x ∈ db.quotes)
    (hstored : x.text = pyStripS x.text)
    (heq : pyStripS x.text = pyStripS q.text)
    (hid : ∀ i, excl = some i → x.id ≠ i) :
    validate_quote db q excl = VOut.dup { q with text := pyStripS q.text } := by
  have hc1 : ¬(q.text = "" ∨ pyStripS q.text = "") := by
    rintro (h | h)
    · exact ht (by rw [h]; rfl)
    · exact ht h
  have hc2 : ¬(q.text.length > 5000) := by omega
  have hmem : x ∈ applyExcl excl (fun y : QuoteEnt => y.id)
      (db.quotes.filter (fun y => y.text == pyStripS q.text)) :=
    mem_applyExcl excl _
      (List.mem_filter.mpr ⟨hx, by simp [hstored.trans heq]⟩) hid
  have hne : applyExcl excl (fun y : QuoteEnt => y.id)
      (db.quotes.filter (fun y => y.text == pyStripS q.text)) ≠ [] :=
    List.ne_nil_of_mem hmem
  simp only [validate_quote]
  rw [if_neg hc1, if_neg hc2, if_pos hne]

/-- Witness for C9: a Quote duplicating the stored text `"hi"` while its
`author_id` (99) references no stored Author still gets the duplicate
outcome. -/
theorem validate_quote_dup_precedes_author_witness :
    validate_quote dbDup ⟨2, "  hi  ", none, some 99⟩ none =
      VOut.dup ⟨2, "hi", none, some 99⟩ := by
  have h := validate_quote_dup_precedes_author dbDup ⟨2, "  hi  ", none, some 99⟩ none
    (by decide) (by decide) ⟨1, "hi", none, some 1⟩ (by decide) (by decide) (by decide)
    (fun i hi => by cases hi)
  exact h

/-- C10: each validator writes the sanitized field values into the entity
before the duplicate check, so whenever the outcome is `dup` the entity's
state carried by the outcome holds the trimmed quote text, the sanitized
author name, the sanitized tag name, and the trimmed user name together
with the trimmed-and-lowercased email. -/
theorem validate_mutates_before_duplicate (db : DB) (q : QuoteEnt) (a : AuthorEnt)
    (t : TagEnt) (u : UserEnt) (e1 e2 e3 e4 : Option Nat) :
    (∀ q', validate_quote db q e1 = VOut.dup q' → q'.text = pyStripS q.text) ∧
    (∀ a', validate_author db a e2 = VOut.dup a' → a'.name = sanitize_author_name a.name) ∧
    (∀ t', validate_tag db t e3 = VOut.dup t' → sanitize_tag_name t.name = Except.ok t'.name) ∧
    (∀ u', validate_user db u e4 = VOut.dup u' →
        u'.name = pyStripS u.name ∧ u'.email = pyLowerS (pyStripS u.email)) := by
  refine ⟨?_, ?_, ?_, ?_⟩
  · intro q' h
    simp only [validate_quote] at h
    split at h
    · simp at h
    split at h
    · simp at h
    split at h
    · injection h with h'
      subst h'
      rfl
    · repeat' split at h
      all_goals simp at h
  · intro a' h
    simp only [validate_author] at h
    split at h
    · simp at h
    split at h
    · injection h with h'
      subst h'
      rfl
    · simp at h
  · intro t' h
    simp only [validate_tag] at h
    split at h
    · simp at h
    split at h
    · simp at h
    next n heq =>
      split at h
      · injection h with h'
        subst h'
        exact heq
      · simp at h
  · intro u' h
    simp only [validate_user] at h
    split at h
    · simp at h
    split at h
    · simp at h
    split at h
    · simp at h
    split at h
    · injection h with h'
      subst h'
      exact ⟨rfl, rfl⟩
    · simp at h

/-- Witness for C10: the duplicate outcomes on `dbDup` carry the sanitized
field values of the four entity kinds. -/
theorem validate_mutates_before_duplicate_witness :
    ("hi" : String) = pyStripS "  hi  " ∧
    ("Mark Twain" : String) = sanitize_author_name "mark twain" ∧
    sanitize_tag_name "Love!" = Except.ok "love" ∧
    (("bob" : String) = pyStripS " bob " ∧ ("b@c" : String) = pyLowerS (pyStripS "B@c")) := by
  have h := validate_mutates_before_duplicate dbDup ⟨2, "  hi  ", none, some 99⟩
      ⟨2, "mark twain"⟩ ⟨2, "Love!"⟩ ⟨2, " bob ", "B@c"⟩ none none none none
  exact ⟨h.1 ⟨2, "hi", none, some 99⟩ (by decide),
         h.2.1 ⟨2, "Mark Twain"⟩ (by decide),
         h.2.2.1 ⟨2, "love"⟩ (by decide),
         h.2.2.2 ⟨2, "bob", "b@c"⟩ (by decide)⟩

/-- C4: `sanitize_tag_name` either fails or returns a non-empty string of
at most 100 characters made only of lowercase ASCII letters and digits; it
fails exactly when the scrubbed name (lowercased, stripped, NFKD-decomposed
with non-ASCII dropped, restricted to `[a-z0-9]`) is empty or longer than
100 characters. -/
theorem sanitize_tag_shape (s : String) :
    (∀ r, sanitize_tag_name s = Except.ok r →
        r ≠ "" ∧ r.length ≤ 100 ∧ ∀ c ∈ r.toList, isTagKeep c = true) ∧
    ((∃ e, sanitize_tag_name s = Except.error e) ↔
      (tagScrub s = [] ∨ (tagScrub s).length > 100)) := by
  by_cases h1 : tagScrub s = []
  · constructor
    · intro r h
      rw [sanitize_tag_name] at h
      simp [listIsEmpty_iff, h1] at h
    · constructor
      · intro _
        exact Or.inl h1
      · intro _
        exact ⟨_, by rw [sanitize_tag_name, if_pos ((listIsEmpty_iff _).mpr h1)]⟩
  · by_cases h2 : (tagScrub s).length > 100
    · constructor
      · intro r h
        rw [sanitize_tag_name] at h
        simp [listIsEmpty_iff, h1, h2] at h
      · constructor
        · intro _
          exact Or.inr h2
        · intro _
          exact ⟨_, by
            rw [sanitize_tag_name,
              if_neg (fun hc => h1 ((listIsEmpty_iff _).mp hc)), if_pos h2]⟩
    · constructor
      · intro r h
        rw [sanitize_tag_name,
          if_neg (fun hc => h1 ((listIsEmpty_iff _).mp hc)), if_neg h2] at h
        injection h with h'
        subst h'
        refine ⟨?_, Nat.le_of_not_lt h2, ?_⟩
        · intro hc
          exact h1 (congrArg String.data hc)
        · intro c hc
          exact tagScrub_chars s c hc
      · constructor
        · rintro ⟨e, he⟩
          rw [sanitize_tag_name,
            if_neg (fun hc => h1 ((listIsEmpty_iff _).mp hc)), if_neg h2] at he
          cases he
        · rintro (h | h)
          · exact absurd h h1
          · exact absurd h h2

/-- Witness for C4: `"Café-Time!"` sanitizes to `"cafetime"`, a non-empty
short lowercase-alphanumeric string. -/
theorem sanitize_tag_shape_witness :
    ("cafetime" : String) ≠ "" ∧ ("cafetime" : String).length ≤ 100 ∧
    ∀ c ∈ ("cafetime" : String).toList, isTagKeep c = true :=
  (sanitize_tag_shape "Café-Time!").1 "cafetime" rfl
